import Mathlib

/-!
Verification of the ProHand client SDK C++ wrapper (`ProHandClient.hpp`)
and its demo programs.

Time is modelled in milliseconds as natural numbers: every duration in the
source (`0.05 s` poll interval, `0.2 s` settle delay, caller timeouts) is a
whole number of milliseconds.  SDK primitive calls are modelled as
instantaneous; the environment behind the C API (`prohand_is_running_state`,
`prohand_set_streaming_mode`, ...) is an abstract deterministic state
machine `HostModel`.
-/

namespace ProHand

/-- Abstract behaviour of the native layer plus remote host, as observed
through the two primitives that `waitForStreamingReady` uses inside its
loop: `isRunningState` (a non-blocking status poll) and
`setStreamingMode(true)` (a command send that may throw).  `σ` is the
environment state; each call reads the current state and steps it. -/
structure HostModel (σ : Type) where
  running : σ → Bool
  afterPoll : σ → σ
  enableThrows : σ → Bool
  afterEnable : σ → σ

/-- The constant `pollInterval = 0.05 s` in `waitForStreamingReady`. -/
def pollIntervalMs : ℕ := 50

/-- The fixed `0.2 s` sleep before the poll loop ("Initial delay for ZMQ
PUB/SUB connection to establish"). -/
def settleDelayMs : ℕ := 200

/-- Observable outcome of one `waitForStreamingReady` call: the returned
boolean, the time (ms after the call) at which it returns, whether the
deadline-elapsed path was taken, and how many in-loop status polls,
in-loop `setStreamingMode(true)` attempts and after-loop final checks
were performed.  `endState` is the environment state at the moment of the
last status check. -/
structure WaitResult (σ : Type) where
  value : Bool
  time : ℕ
  timedOut : Bool
  polls : ℕ
  enables : ℕ
  finalChecks : ℕ
  endState : σ
  deriving DecidableEq

/-- The re-assert block of the loop body: if at least `retryInterval`
has passed since `lastRetry`, attempt `setStreamingMode(true)`; an
exception is swallowed and leaves `lastRetry` unchanged, success sets
`lastRetry` to the current time.  Returns (new `lastRetry`, new
environment state, number of enable attempts made). -/
def retryStep {σ : Type} (M : HostModel σ) (r t lastRetry : ℕ) (s1 : σ) :
    ℕ × σ × ℕ :=
  if r ≤ t - lastRetry then
    ((if M.enableThrows s1 then lastRetry else t), M.afterEnable s1, 1)
  else (lastRetry, s1, 0)

/-- The `while (true)` loop of `ProHandClient::waitForStreamingReady`,
entered at time `t` (ms since the call) with re-assert bookkeeping
`lastRetry`.  `fuel` bounds the number of iterations; `none` means the
fuel ran out (ruled out below for the fuel used by
`waitForStreamingReady`).  Mirrors the source line by line:
deadline check, `isRunningState()` poll, conditional re-assert of
`setStreamingMode(true)` with exceptions swallowed, then a sleep of
`min(pollInterval, remaining)`. -/
def loop {σ : Type} (M : HostModel σ) (T r : ℕ) :
    ℕ → ℕ → ℕ → σ → Option (WaitResult σ)
  | 0, _, _, _ => none
  | fuel + 1, t, lastRetry, s =>
    if T ≤ t then
      some ⟨M.running s, t, true, 0, 0, 1, s⟩
    else if M.running s then
      some ⟨true, t, false, 1, 0, 0, s⟩
    else
      let step := retryStep M r t lastRetry (M.afterPoll s)
      let remaining := T - t
      if 0 < remaining then
        match loop M T r fuel (t + min pollIntervalMs remaining) step.1 step.2.1 with
        | none => none
        | some res =>
            some { res with polls := res.polls + 1, enables := res.enables + step.2.2 }
      else
        some ⟨M.running step.2.1, t, true, 1, step.2.2, 1, step.2.1⟩

/-- Fuel sufficient for a timeout of `T` ms (proved in
`loop_isSome_of_fuel`). -/
def waitFuel (T : ℕ) : ℕ := (T + 49) / 50 + 1

/-- Embedding of `ProHandClient::waitForStreamingReady` on a client with a valid
handle.  `pingOk` is whether the initial synchronous `sendPing()`
succeeds: on failure the `catch (...)` returns `false` at once.
Otherwise the `0.2 s` settle sleep runs and the poll loop is entered at
`t = settleDelayMs` with `lastRetry` at the call time `0`. -/
def waitForStreamingReady {σ : Type} (M : HostModel σ) (pingOk : Bool)
    (s0 : σ) (T r : ℕ) : Option (WaitResult σ) :=
  if pingOk then loop M T r (waitFuel T) settleDelayMs 0 s0
  else some ⟨false, 0, false, 0, 0, 0, s0⟩

/-- Returned boolean of a wait outcome (`false` if the fuel ran out). -/
def waitValue {σ : Type} (o : Option (WaitResult σ)) : Bool :=
  (o.map WaitResult.value).getD false

/-- Return time of a wait outcome. -/
def waitTime {σ : Type} (o : Option (WaitResult σ)) : ℕ :=
  (o.map WaitResult.time).getD 0

/-- Whether the deadline-elapsed exit path was taken. -/
def waitTimedOut {σ : Type} (o : Option (WaitResult σ)) : Bool :=
  (o.map WaitResult.timedOut).getD false

/-- Number of in-loop status polls. -/
def waitPolls {σ : Type} (o : Option (WaitResult σ)) : ℕ :=
  (o.map WaitResult.polls).getD 0

/-- Number of in-loop `setStreamingMode(true)` attempts. -/
def waitEnables {σ : Type} (o : Option (WaitResult σ)) : ℕ :=
  (o.map WaitResult.enables).getD 0

/-- A status channel that never reports a running state and an enable
command that never throws; used to exercise the timeout path. -/
def neverRunningHost : HostModel Unit :=
  ⟨fun _ => false, id, fun _ => false, id⟩

/-- A status channel that never reports a running state and an enable
command that always throws; used to exercise exception swallowing. -/
def throwingHost : HostModel Unit :=
  ⟨fun _ => false, id, fun _ => true, id⟩

/-- Lossy transport of testable property 4: `setStreamingMode(true)`
sends never throw, every odd-numbered send (the first, third, ...) is
dropped, every even-numbered send is delivered, and the host reports a
running state exactly once a send has been delivered.  State =
(number of sends so far, delivered yet). -/
def lossyHost : HostModel (ℕ × Bool) where
  running := fun s => s.2
  afterPoll := id
  enableThrows := fun _ => false
  afterEnable := fun s => (s.1 + 1, s.2 || decide ((s.1 + 1) % 2 = 0))

/-- Invariant carried through the poll loop against `lossyHost`: either
no enable has been sent yet (and the first send is due by time
`max settleDelayMs (r + 49)`), or exactly the first (dropped) enable has
been sent at time `lastRetry` (and the second is due by `lastRetry +
max 50 (r + 49)`), or the second enable has been delivered and the host
reports running. -/
def lossyInv (T r t lastRetry : ℕ) (s : ℕ × Bool) : Prop :=
  (s = (0, false) ∧ lastRetry = 0 ∧ settleDelayMs ≤ t ∧ t ≤ max settleDelayMs (r + 49))
  ∨ (s = (1, false) ∧ lastRetry ≤ max settleDelayMs (r + 49) ∧ lastRetry + 50 ≤ t
       ∧ t ≤ lastRetry + max 50 (r + 49))
  ∨ (s = (2, true) ∧ t < T)

/-! ## The public client operations

Each wrapper method of `ProHandClient` is embedded as a pure function of
the client's handle validity (`handle : Bool`, `false` = null pointer),
its value arguments, and the result code the underlying C call would
return.  The output records the `Except`-style outcome and whether the
underlying C send/poll function was invoked at all. -/

/-- Error classes of `SdkException` throw sites in the wrapper:
`nullHandle` from `checkHandle`, `invalidArity` from the argument-length
guards, `backend code` from `checkResult` on a non-success C result
code. -/
inductive ClientError where
  | nullHandle
  | invalidArity
  | backend (code : Int)
  deriving DecidableEq

/-- Embedding of `ProHandClient::checkResult`: success code `0` returns, any other
code throws (the message switch only affects the exception text). -/
def checkResult (code : Int) : Except ClientError Unit :=
  if code = 0 then .ok () else .error (.backend code)

/-- Outcome of one wrapper call: the result, and whether the underlying
C function was invoked (`sent = false` means no transmission was even
attempted). -/
structure OpResult where
  result : Except ClientError Unit
  sent : Bool

/-- The `ProHandClient::checkHandle` guard wrapped around a method body. -/
def guarded (handle : Bool) (body : OpResult) : OpResult :=
  if handle then body else ⟨.error .nullHandle, false⟩

/-- Embedding of `ProHandClient::sendPing`. -/
def sendPing (handle : Bool) (code : Int) : OpResult :=
  guarded handle ⟨checkResult code, true⟩

/-- Embedding of `ProHandClient::setStreamingMode`. -/
def setStreamingMode (handle : Bool) (_enabled : Bool) (code : Int) : OpResult :=
  guarded handle ⟨checkResult code, true⟩

/-- Embedding of `ProHandClient::setWristLimits` (three 2-element limit arrays). -/
def setWristLimits (handle : Bool) (maxVelocity maxAcceleration maxJerk : List ℚ)
    (code : Int) : OpResult :=
  guarded handle <|
    if maxVelocity.length ≠ 2 ∨ maxAcceleration.length ≠ 2 ∨ maxJerk.length ≠ 2 then
      ⟨.error .invalidArity, false⟩
    else ⟨checkResult code, true⟩

/-- Embedding of `ProHandClient::sendRotaryCommands` (16 positions, 16 torques). -/
def sendRotaryCommands (handle : Bool) (positions torques : List ℚ)
    (code : Int) : OpResult :=
  guarded handle <|
    if positions.length ≠ 16 ∨ torques.length ≠ 16 then ⟨.error .invalidArity, false⟩
    else ⟨checkResult code, true⟩

/-- Embedding of `ProHandClient::sendLinearCommands` (2 positions, 2 speeds). -/
def sendLinearCommands (handle : Bool) (positions speeds : List ℚ)
    (code : Int) : OpResult :=
  guarded handle <|
    if positions.length ≠ 2 ∨ speeds.length ≠ 2 then ⟨.error .invalidArity, false⟩
    else ⟨checkResult code, true⟩

/-- Embedding of `ProHandClient::sendRotaryStreams` (16 positions, 16 torques). -/
def sendRotaryStreams (handle : Bool) (positions torques : List ℚ)
    (code : Int) : OpResult :=
  guarded handle <|
    if positions.length ≠ 16 ∨ torques.length ≠ 16 then ⟨.error .invalidArity, false⟩
    else ⟨checkResult code, true⟩

/-- Embedding of `ProHandClient::sendLinearStreams` (2 positions, 2 speeds). -/
def sendLinearStreams (handle : Bool) (positions speeds : List ℚ)
    (code : Int) : OpResult :=
  guarded handle <|
    if positions.length ≠ 2 ∨ speeds.length ≠ 2 then ⟨.error .invalidArity, false⟩
    else ⟨checkResult code, true⟩

/-- Embedding of `ProHandClient::sendWristCommands` (2 wrist joint angles). -/
def sendWristCommands (handle : Bool) (positions : List ℚ) (_useProfiler : Bool)
    (code : Int) : OpResult :=
  guarded handle <|
    if positions.length ≠ 2 then ⟨.error .invalidArity, false⟩
    else ⟨checkResult code, true⟩

/-- Embedding of `ProHandClient::sendWristStreams` (2 wrist joint angles). -/
def sendWristStreams (handle : Bool) (positions : List ℚ) (_useProfiler : Bool)
    (code : Int) : OpResult :=
  guarded handle <|
    if positions.length ≠ 2 then ⟨.error .invalidArity, false⟩
    else ⟨checkResult code, true⟩

/-- Embedding of `ProHandClient::sendHandCommands` (20 joint angles, one torque). -/
def sendHandCommands (handle : Bool) (positions : List ℚ) (_torque : ℚ)
    (code : Int) : OpResult :=
  guarded handle <|
    if positions.length ≠ 20 then ⟨.error .invalidArity, false⟩
    else ⟨checkResult code, true⟩

/-- Embedding of `ProHandClient::sendHandStreams` (20 joint angles, one torque). -/
def sendHandStreams (handle : Bool) (positions : List ℚ) (_torque : ℚ)
    (code : Int) : OpResult :=
  guarded handle <|
    if positions.length ≠ 20 then ⟨.error .invalidArity, false⟩
    else ⟨checkResult code, true⟩

/-- Embedding of `ProHandClient::sendZeroCalibration` (16-element joint mask, converted
to a 0/1 int mask before transmission). -/
def sendZeroCalibration (handle : Bool) (mask : List Bool) (code : Int) : OpResult :=
  guarded handle <|
    if mask.length ≠ 16 then ⟨.error .invalidArity, false⟩
    else ⟨checkResult code, true⟩

/-- Embedding of `ProHandClient::isConnected`: a null handle yields `false` (no
exception); otherwise the C-level connected flag is returned. -/
def isConnected (handle : Bool) (connected : Bool) : Bool :=
  if handle then connected else false

/-- Embedding of `ProHandClient::isRunningState`: null handle throws; otherwise the
C result is compared with `1`, so an error code (negative) becomes
`false`. -/
def isRunningState (handle : Bool) (code : Int) : Except ClientError Bool :=
  if handle then .ok (code == 1) else .error .nullHandle

/-- The raw `ProHandStatusInfo` C struct filled by
`prohand_try_recv_status`: validity and type ints plus fixed 16- and
2-element position arrays. -/
structure WireStatus where
  isValid : Int
  statusType : Int
  rotary : Fin 16 → ℚ
  linear : Fin 2 → ℚ

/-- The C++ `HandStatus` built by `tryRecvStatus` from a received
`ProHandStatusInfo`. -/
structure HandStatus where
  isValid : Bool
  statusType : Int
  rotaryPositions : List ℚ
  linearPositions : List ℚ
  deriving DecidableEq

/-- The copy in `tryRecvStatus`: `is_valid != 0`, the type code, and the
16- and 2-element arrays copied in order. -/
def mkHandStatus (w : WireStatus) : HandStatus :=
  ⟨w.isValid != 0, w.statusType, List.ofFn w.rotary, List.ofFn w.linear⟩

/-- Embedding of `ProHandClient::tryRecvStatus`: positive poll result wraps the copied
status in `some`; zero yields `none`; negative goes through `checkResult`
(which throws) with an unreachable `return nullopt` after it. -/
def tryRecvStatus (handle : Bool) (code : Int) (w : WireStatus) :
    Except ClientError (Option HandStatus) :=
  if handle then
    if 0 < code then .ok (some (mkHandStatus w))
    else if code = 0 then .ok none
    else (checkResult code).bind fun _ => .ok none
  else .error .nullHandle

/-- Modelled from the spec: the buffered queue behind
`prohand_try_recv_status` (its native implementation is not part of these
sources).  A non-empty queue yields one message (poll result `1`) and
removes it; an empty queue yields poll result `0` and stays empty. -/
def pollStatusQueue (q : List WireStatus) : (Int × WireStatus) × List WireStatus :=
  match q with
  | [] => ((0, ⟨0, 0, fun _ => 0, fun _ => 0⟩), [])
  | w :: rest => ((1, w), rest)

/-- The composition of `tryRecvStatus` with the spec-modelled queue. -/
def tryRecvStatusQ (handle : Bool) (q : List WireStatus) :
    Except ClientError (Option HandStatus) × List WireStatus :=
  (tryRecvStatus handle (pollStatusQueue q).1.1 (pollStatusQueue q).1.2,
    (pollStatusQueue q).2)

/-- Embedding of `waitForStreamingReady` including the `checkHandle()` at its top. -/
def waitForStreamingReadyChecked {σ : Type} (handle : Bool) (M : HostModel σ)
    (pingOk : Bool) (s0 : σ) (T r : ℕ) :
    Except ClientError (Option (WaitResult σ)) :=
  if handle then .ok (waitForStreamingReady M pingOk s0 T r)
  else .error .nullHandle

/-- A well-formed 2-element argument list. -/
def q2 : List ℚ := List.replicate 2 0

/-- A well-formed 16-element argument list. -/
def q16 : List ℚ := List.replicate 16 0

/-- A well-formed 20-element argument list. -/
def q20 : List ℚ := List.replicate 20 0

/-- A well-formed 16-element calibration mask. -/
def mask16 : List Bool := List.replicate 16 false

/-- A concrete wire status used as a test fixture. -/
def wire0 : WireStatus := ⟨1, 1, fun _ => 0, fun _ => 0⟩

/-! ## Client lifetime

`ProHandClient` owns a raw `ProHandClientHandle*`.  We model the pointer
as `Option ℕ` (a handle id or null) and record every
`prohand_client_destroy` invocation in an output list, so double-free
freedom is the statement that a given id is emitted at most once. -/

/-- A `ProHandClient` object: just its `handle_` pointer. -/
structure ClientH where
  handle : Option ℕ
  deriving DecidableEq

/-- Embedding of `ProHandClient::~ProHandClient`: destroy the handle if non-null and
null it out; returns the updated object and the list of destroy calls
made. -/
def destructor (c : ClientH) : ClientH × List ℕ :=
  match c.handle with
  | some h => (⟨none⟩, [h])
  | none => (⟨none⟩, [])

/-- Move assignment (`operator=(ProHandClient&&)`) between two distinct
objects: destroy the destination's current handle if non-null, steal the
source's handle, null the source.  Returns (new destination, new source,
destroy calls made). -/
def moveAssign (dst src : ClientH) : ClientH × ClientH × List ℕ :=
  (⟨src.handle⟩, ⟨none⟩,
    match dst.handle with
    | some h => [h]
    | none => [])

/-- Move construction: steal the handle, null the source; no destroy. -/
def moveCtor (src : ClientH) : ClientH × ClientH :=
  (⟨src.handle⟩, ⟨none⟩)

/-! ## Demo control flow (cyclic_motion.cpp, kapandji.cpp)

The demo `main`s are modelled as the sequence of SDK calls they make,
parametrised by the boolean returned by `waitForStreamingReady` and the
number of loop iterations.  A demo aborted by an exception executes a
prefix (`List.take`) of its trace: the `catch` block ends the program. -/

inductive DemoEvent where
  | ping
  | setMode (enabled : Bool)
  | waitReady (result : Bool)
  | handStream
  | wristStream
  deriving DecidableEq

/-- Whether an event is a streaming-channel send. -/
def isStreamSend : DemoEvent → Bool
  | .handStream => true
  | .wristStream => true
  | _ => false

/-- Every streaming send in the trace is preceded by
`waitForStreamingReady` returning `true`. -/
def gatedOnReady (tr : List DemoEvent) : Prop :=
  ∀ i : ℕ, ∀ hi : i < tr.length, isStreamSend (tr.get ⟨i, hi⟩) = true →
    ∃ j : ℕ, ∃ hj : j < tr.length, j < i ∧ tr.get ⟨j, hj⟩ = DemoEvent.waitReady true

/-- One iteration of the demo motion loops: a wrist stream send followed
by a hand stream send. -/
def demoIter : List DemoEvent := [.wristStream, .handStream]

/-- The `cyclic_motion.cpp` main flow after connecting: ping, enable
streaming, wait for readiness; on failure disable and exit, on success
run the motion loop, return to zero, and disable streaming. -/
def cyclicMotionTrace (ready : Bool) (iters : ℕ) (excludeWrist : Bool) :
    List DemoEvent :=
  [.ping, .setMode true, .waitReady ready] ++
    if ready then
      (List.replicate iters demoIter).flatten ++ [.handStream] ++
        (if excludeWrist then [] else [.wristStream]) ++ [.setMode false]
    else [.setMode false]

/-- The `kapandji.cpp` main flow after connecting: ping, enable streaming,
wait for readiness; on failure exit immediately, on success stream the
pose sequence, send the final zero pose, and disable streaming. -/
def kapandjiTrace (ready : Bool) (iters : ℕ) : List DemoEvent :=
  [.ping, .setMode true, .waitReady ready] ++
    if ready then (List.replicate iters demoIter).flatten ++ [.handStream, .setMode false]
    else []

/-! ## Lemmas about the poll loop -/

theorem loop_isSome_of_fuel {σ : Type} (M : HostModel σ) (T r : ℕ) :
    ∀ fuel t lastRetry s, (T - t + 49) / 50 + 1 ≤ fuel →
      (loop M T r fuel t lastRetry s).isSome = true := by
  intro fuel
  induction fuel with
  | zero => intro t lr s h; omega
  | succ f ih =>
    intro t lr s h
    simp only [loop]
    by_cases h1 : T ≤ t
    · simp [h1]
    · by_cases h2 : M.running s = true
      · simp [h1, h2]
      · have hrem : 0 < T - t := by omega
        simp only [h1, h2, if_false, Bool.false_eq_true, hrem, if_true, if_pos]
        have harith : (T - (t + min pollIntervalMs (T - t)) + 49) / 50 + 1 ≤ f := by
          simp only [pollIntervalMs]
          omega
        obtain ⟨res, hres⟩ := Option.isSome_iff_exists.mp
          (ih (t + min pollIntervalMs (T - t))
            (retryStep M r t lr (M.afterPoll s)).1
            (retryStep M r t lr (M.afterPoll s)).2.1 harith)
        rw [hres]
        rfl

theorem loop_time_le {σ : Type} (M : HostModel σ) (T r : ℕ) :
    ∀ fuel t lastRetry s res, loop M T r fuel t lastRetry s = some res →
      res.time ≤ max T t := by
  intro fuel
  induction fuel with
  | zero => intro t lr s res h; simp [loop] at h
  | succ f ih =>
    intro t lr s res h
    simp only [loop] at h
    by_cases h1 : T ≤ t
    · rw [if_pos h1] at h
      cases h
      simp
    · rw [if_neg h1] at h
      by_cases h2 : M.running s = true
      · rw [if_pos h2] at h
        cases h
        simp
      · rw [if_neg h2] at h
        have hrem : 0 < T - t := by omega
        rw [if_pos hrem] at h
        cases hrec : loop M T r f (t + min pollIntervalMs (T - t))
            (retryStep M r t lr (M.afterPoll s)).1
            (retryStep M r t lr (M.afterPoll s)).2.1 with
        | none => rw [hrec] at h; cases h
        | some res' =>
          rw [hrec] at h
          cases h
          have := ih _ _ _ _ hrec
          simp only [pollIntervalMs] at this ⊢
          omega

theorem loop_timedOut_final {σ : Type} (M : HostModel σ) (T r : ℕ) :
    ∀ fuel t lastRetry s res, loop M T r fuel t lastRetry s = some res →
      res.timedOut = true →
      res.finalChecks = 1 ∧ res.value = M.running res.endState := by
  intro fuel
  induction fuel with
  | zero => intro t lr s res h; simp [loop] at h
  | succ f ih =>
    intro t lr s res h hto
    simp only [loop] at h
    by_cases h1 : T ≤ t
    · rw [if_pos h1] at h
      cases h
      exact ⟨rfl, rfl⟩
    · rw [if_neg h1] at h
      by_cases h2 : M.running s = true
      · rw [if_pos h2] at h
        cases h
        cases hto
      · rw [if_neg h2] at h
        have hrem : 0 < T - t := by omega
        rw [if_pos hrem] at h
        cases hrec : loop M T r f (t + min pollIntervalMs (T - t))
            (retryStep M r t lr (M.afterPoll s)).1
            (retryStep M r t lr (M.afterPoll s)).2.1 with
        | none => rw [hrec] at h; cases h
        | some res' =>
          rw [hrec] at h
          cases h
          exact ih _ _ _ res' hrec hto

theorem loop_neverRunning {σ : Type} (M : HostModel σ) (T r : ℕ)
    (hr : ∀ s, M.running s = false) :
    ∀ fuel t lastRetry s, (T - t + 49) / 50 + 1 ≤ fuel →
      ∃ res, loop M T r fuel t lastRetry s = some res ∧
        res.value = false ∧ res.timedOut = true ∧ res.time = max T t ∧
        res.polls = (T - t + 49) / 50 := by
  intro fuel
  induction fuel with
  | zero => intro t lr s h; omega
  | succ f ih =>
    intro t lr s h
    simp only [loop]
    by_cases h1 : T ≤ t
    · refine ⟨_, by rw [if_pos h1], hr s, rfl, ?_, ?_⟩ <;> simp <;> omega
    · have hrem : 0 < T - t := by omega
      have harith : (T - (t + min pollIntervalMs (T - t)) + 49) / 50 + 1 ≤ f := by
        simp only [pollIntervalMs]
        omega
      obtain ⟨res', hrec, hv, hto, hti, hp⟩ :=
        ih (t + min pollIntervalMs (T - t))
          (retryStep M r t lr (M.afterPoll s)).1
          (retryStep M r t lr (M.afterPoll s)).2.1 harith
      rw [if_neg h1, if_neg (by simp [hr s]), if_pos hrem, hrec]
      refine ⟨_, rfl, hv, hto, ?_, ?_⟩
      · simp only [hti, pollIntervalMs] at *
        omega
      · simp only [hp, pollIntervalMs] at *
        omega

theorem lossy_loop_reaches (T r : ℕ) (hT : 2 * r + 350 ≤ T) :
    ∀ fuel t lastRetry s, (T - t + 49) / 50 + 1 ≤ fuel →
      lossyInv T r t lastRetry s →
      ∃ res, loop lossyHost T r fuel t lastRetry s = some res ∧
        res.value = true ∧ res.time < T := by
  intro fuel
  induction fuel with
  | zero => intro t lr s h _; omega
  | succ f ih =>
    intro t lr s h hinv
    unfold lossyInv at hinv
    simp only [settleDelayMs] at hinv
    rcases hinv with ⟨rfl, rfl, ht1, ht2⟩ | ⟨rfl, hlr, ht1, ht2⟩ | ⟨rfl, ht⟩
    · -- no enable sent yet; state (0, false), lastRetry = 0
      have hbound : t + 50 ≤ T := by omega
      simp only [loop]
      rw [if_neg (by omega), if_neg (by simp [lossyHost])]
      rw [if_pos (by omega : 0 < T - t)]
      have hmin : min pollIntervalMs (T - t) = 50 := by
        simp only [pollIntervalMs]
        omega
      rw [hmin]
      by_cases hsend : r ≤ t
      · have hstep : retryStep lossyHost r t 0 (lossyHost.afterPoll (0, false))
            = (t, ((1 : ℕ), false), 1) := by
          simp [retryStep, lossyHost, hsend]
        simp only [hstep]
        obtain ⟨res', hrec, hv, hti⟩ :=
          ih (t + 50) t (1, false) (by omega)
            (Or.inr (Or.inl ⟨rfl, by simp only [settleDelayMs]; omega, by omega, by omega⟩))
        rw [hrec]
        exact ⟨_, rfl, hv, hti⟩
      · have hstep : retryStep lossyHost r t 0 (lossyHost.afterPoll (0, false))
            = (0, ((0 : ℕ), false), 0) := by
          simp [retryStep, lossyHost, hsend]
        simp only [hstep]
        obtain ⟨res', hrec, hv, hti⟩ :=
          ih (t + 50) 0 (0, false) (by omega)
            (Or.inl ⟨rfl, rfl, by simp only [settleDelayMs]; omega,
              by simp only [settleDelayMs]; omega⟩)
        rw [hrec]
        exact ⟨_, rfl, hv, hti⟩
    · -- exactly the first (dropped) enable sent, at time lastRetry
      have hbound : t + 51 ≤ T := by omega
      simp only [loop]
      rw [if_neg (by omega), if_neg (by simp [lossyHost])]
      rw [if_pos (by omega : 0 < T - t)]
      have hmin : min pollIntervalMs (T - t) = 50 := by
        simp only [pollIntervalMs]
        omega
      rw [hmin]
      by_cases hsend : r ≤ t - lr
      · have hstep : retryStep lossyHost r t lr (lossyHost.afterPoll (1, false))
            = (t, ((2 : ℕ), true), 1) := by
          simp [retryStep, lossyHost, hsend]
        simp only [hstep]
        obtain ⟨res', hrec, hv, hti⟩ :=
          ih (t + 50) t (2, true) (by omega) (Or.inr (Or.inr ⟨rfl, by omega⟩))
        rw [hrec]
        exact ⟨_, rfl, hv, hti⟩
      · have hstep : retryStep lossyHost r t lr (lossyHost.afterPoll (1, false))
            = (lr, ((1 : ℕ), false), 0) := by
          simp [retryStep, lossyHost, hsend]
        simp only [hstep]
        obtain ⟨res', hrec, hv, hti⟩ :=
          ih (t + 50) lr (1, false) (by omega)
            (Or.inr (Or.inl ⟨rfl, hlr, by omega, by omega⟩))
        rw [hrec]
        exact ⟨_, rfl, hv, hti⟩
    · -- second enable delivered: the next poll observes running
      simp only [loop]
      rw [if_neg (by omega), if_pos (by simp [lossyHost])]
      exact ⟨_, rfl, rfl, ht⟩

/-! ## Claims about waitForStreamingReady -/

/-- C1 (amended): for every timeout `T`, retry interval and status-channel
behaviour (including one that never reports running),
`waitForStreamingReady` terminates — the loop fuel never runs out — and
returns within `max T settleDelay` ms of the call, hence within
`max T settleDelay` plus one poll interval.  The original bound
`T + pollInterval` is violated for small `T` because the fixed 0.2 s
settle sleep runs unconditionally before the deadline is first checked:
see the counterexample. -/
theorem waitForStreamingReady_returns_within_settle_bound {σ : Type}
    (M : HostModel σ) (pingOk : Bool) (s0 : σ) (T r : ℕ) :
    (waitForStreamingReady M pingOk s0 T r).isSome = true ∧
      waitTime (waitForStreamingReady M pingOk s0 T r) ≤ max T settleDelayMs := by
  unfold waitForStreamingReady
  cases pingOk with
  | false => simp [waitTime]
  | true =>
    have hfuel : (T - settleDelayMs + 49) / 50 + 1 ≤ waitFuel T := by
      simp only [waitFuel, settleDelayMs]
      omega
    obtain ⟨res, hres⟩ := Option.isSome_iff_exists.mp
      (loop_isSome_of_fuel M T r (waitFuel T) settleDelayMs 0 s0 hfuel)
    have hle := loop_time_le M T r (waitFuel T) settleDelayMs 0 s0 res hres
    simp [hres, waitTime, hle]

/-- C1 counterexample: with a status channel that never reports running,
`timeout = 100` ms and `retryInterval = 50` ms, the call only returns at
`200` ms (the settle delay), beyond the claimed bound of the timeout plus
one poll interval. -/
theorem waitForStreamingReady_c1_bound_fails :
    ¬ waitTime (waitForStreamingReady neverRunningHost true () 100 50)
        ≤ 100 + pollIntervalMs := by
  decide

/-- C2 (amended): against a transport that drops every first
`setStreamingMode(true)` and delivers every second, with the host
reporting running once an enable is delivered, `waitForStreamingReady`
returns `true` strictly before the timeout provided `retryInterval ≤ T/2`
and additionally `T ≥ 2·retryInterval + 350` ms (slack for the 0.2 s
settle delay and the 50 ms poll granularity).  Without the extra lower
bound on `T` the claim fails: see the counterexample. -/
theorem waitForStreamingReady_lossy_reaches_ready (T r : ℕ)
    (_hhalf : 2 * r ≤ T) (hsettle : 2 * r + 350 ≤ T) :
    (waitForStreamingReady lossyHost true (0, false) T r).isSome = true ∧
      waitValue (waitForStreamingReady lossyHost true (0, false) T r) = true ∧
      waitTime (waitForStreamingReady lossyHost true (0, false) T r) < T := by
  obtain ⟨res, hres, hv, hti⟩ :=
    lossy_loop_reaches T r hsettle (waitFuel T) settleDelayMs 0 (0, false)
      (by simp only [waitFuel, settleDelayMs]; omega)
      (Or.inl ⟨rfl, rfl, le_refl _, Nat.le_max_left _ _⟩)
  unfold waitForStreamingReady
  simp [hres, waitValue, waitTime, hv, hti]

/-- C2 witness: concrete instance `T = 400` ms, `retryInterval = 25` ms. -/
theorem waitForStreamingReady_lossy_reaches_ready_witness :
    (waitForStreamingReady lossyHost true (0, false) 400 25).isSome = true ∧
      waitValue (waitForStreamingReady lossyHost true (0, false) 400 25) = true ∧
      waitTime (waitForStreamingReady lossyHost true (0, false) 400 25) < 400 :=
  waitForStreamingReady_lossy_reaches_ready 400 25 (by decide) (by decide)

/-- C2 counterexample: with `T = 200` ms and `retryInterval = 100 = T/2`
ms, the deadline is already reached when the loop is first entered (after
the 0.2 s settle sleep), no second enable is ever delivered, and the call
returns `false`. -/
theorem waitForStreamingReady_lossy_small_timeout_fails :
    waitValue (waitForStreamingReady lossyHost true (0, false) 200 100) = false := by
  decide

/-- C3: if the initial synchronous ping fails, `waitForStreamingReady`
returns `false` immediately (time 0), with no status poll, no enable
send, and no final check. -/
theorem waitForStreamingReady_ping_failure_fast_false {σ : Type}
    (M : HostModel σ) (s0 : σ) (T r : ℕ) :
    waitForStreamingReady M false s0 T r = some ⟨false, 0, false, 0, 0, 0, s0⟩ :=
  rfl

/-- C4: whenever `waitForStreamingReady` exits through the deadline path,
exactly one final running-state check is performed after leaving the
loop, and the returned boolean is exactly the result of that final check
on the environment state at that moment. -/
theorem waitForStreamingReady_timeout_final_check {σ : Type}
    (M : HostModel σ) (pingOk : Bool) (s0 : σ) (T r : ℕ) (res : WaitResult σ)
    (hres : waitForStreamingReady M pingOk s0 T r = some res)
    (hto : res.timedOut = true) :
    res.finalChecks = 1 ∧ res.value = M.running res.endState := by
  unfold waitForStreamingReady at hres
  cases pingOk with
  | false =>
    simp only [Bool.false_eq_true, if_false] at hres
    cases hres
    cases hto
  | true =>
    simp only [if_true] at hres
    exact loop_timedOut_final M T r (waitFuel T) settleDelayMs 0 s0 res hres hto

/-- C4 witness: the never-running host with `T = 100` ms times out with
result `⟨false, 200, true, 0, 0, 1, ()⟩`; one final check, and the value
is that check's result. -/
theorem waitForStreamingReady_timeout_final_check_witness :
    (WaitResult.mk false 200 true 0 0 1 () : WaitResult Unit).finalChecks = 1 ∧
      (WaitResult.mk false 200 true 0 0 1 () : WaitResult Unit).value =
        neverRunningHost.running
          (WaitResult.mk false 200 true 0 0 1 () : WaitResult Unit).endState :=
  waitForStreamingReady_timeout_final_check neverRunningHost true () 100 50
    ⟨false, 200, true, 0, 0, 1, ()⟩ (by decide) rfl

/-- C6: for any environment whose status channel never reports running —
the enable re-assert may throw at every attempt, since `enableThrows` is
unconstrained — the poll loop is never exited by a re-assert failure:
the call still terminates exactly at the deadline `max T settleDelay`,
via the timeout path, returning `false`, having polled the status
channel on every scheduled iteration. -/
theorem wait_loop_survives_enable_failures {σ : Type} (M : HostModel σ)
    (s0 : σ) (T r : ℕ) (hr : ∀ s, M.running s = false) :
    (waitForStreamingReady M true s0 T r).isSome = true ∧
      waitValue (waitForStreamingReady M true s0 T r) = false ∧
      waitTimedOut (waitForStreamingReady M true s0 T r) = true ∧
      waitTime (waitForStreamingReady M true s0 T r) = max T settleDelayMs ∧
      waitPolls (waitForStreamingReady M true s0 T r)
        = (T - settleDelayMs + 49) / 50 := by
  obtain ⟨res, hres, hv, hto, hti, hp⟩ :=
    loop_neverRunning M T r hr (waitFuel T) settleDelayMs 0 s0
      (by simp only [waitFuel, settleDelayMs]; omega)
  unfold waitForStreamingReady
  simp [hres, waitValue, waitTimedOut, waitTime, waitPolls, hv, hto, hti, hp]

/-- C6 witness: a host whose enable send always throws, `T = 300` ms,
`retryInterval = 60` ms: the loop still polls twice (at 200 and 250 ms)
and exits only at the 300 ms deadline with `false`. -/
theorem wait_loop_survives_enable_failures_witness :
    (waitForStreamingReady throwingHost true () 300 60).isSome = true ∧
      waitValue (waitForStreamingReady throwingHost true () 300 60) = false ∧
      waitTimedOut (waitForStreamingReady throwingHost true () 300 60) = true ∧
      waitTime (waitForStreamingReady throwingHost true () 300 60)
        = max 300 settleDelayMs ∧
      waitPolls (waitForStreamingReady throwingHost true () 300 60)
        = (300 - settleDelayMs + 49) / 50 :=
  wait_loop_survives_enable_failures throwingHost () 300 60 (fun _ => rfl)

/-! ## Claims about the command operations -/

/-- C5: every pose-command operation called on a valid client with an
argument array of the wrong length fails with the invalid-arity error
and performs no transmission at all (`sent = false`): the input is never
padded or truncated. -/
theorem send_ops_arity_guard (code : Int) (ps ts mv ma mj : List ℚ)
    (mask : List Bool) (tq : ℚ) (up : Bool) :
    (ps.length ≠ 16 ∨ ts.length ≠ 16 →
      sendRotaryCommands true ps ts code = ⟨.error .invalidArity, false⟩) ∧
    (ps.length ≠ 16 ∨ ts.length ≠ 16 →
      sendRotaryStreams true ps ts code = ⟨.error .invalidArity, false⟩) ∧
    (ps.length ≠ 20 →
      sendHandCommands true ps tq code = ⟨.error .invalidArity, false⟩) ∧
    (ps.length ≠ 20 →
      sendHandStreams true ps tq code = ⟨.error .invalidArity, false⟩) ∧
    (ps.length ≠ 2 ∨ ts.length ≠ 2 →
      sendLinearCommands true ps ts code = ⟨.error .invalidArity, false⟩) ∧
    (ps.length ≠ 2 ∨ ts.length ≠ 2 →
      sendLinearStreams true ps ts code = ⟨.error .invalidArity, false⟩) ∧
    (ps.length ≠ 2 →
      sendWristCommands true ps up code = ⟨.error .invalidArity, false⟩) ∧
    (ps.length ≠ 2 →
      sendWristStreams true ps up code = ⟨.error .invalidArity, false⟩) ∧
    (mask.length ≠ 16 →
      sendZeroCalibration true mask code = ⟨.error .invalidArity, false⟩) ∧
    (mv.length ≠ 2 ∨ ma.length ≠ 2 ∨ mj.length ≠ 2 →
      setWristLimits true mv ma mj code = ⟨.error .invalidArity, false⟩) := by
  refine ⟨?_, ?_, ?_, ?_, ?_, ?_, ?_, ?_, ?_, ?_⟩ <;> intro h <;>
    simp only [sendRotaryCommands, sendRotaryStreams, sendHandCommands,
      sendHandStreams, sendLinearCommands, sendLinearStreams,
      sendWristCommands, sendWristStreams, sendZeroCalibration,
      setWristLimits, guarded, if_true] <;>
    rw [if_pos h]

/-- C5 witness: the empty list triggers the arity error on every
operation. -/
theorem send_ops_arity_guard_witness :
    sendRotaryCommands true [] [] 0 = ⟨.error .invalidArity, false⟩ ∧
    sendRotaryStreams true [] [] 0 = ⟨.error .invalidArity, false⟩ ∧
    sendHandCommands true [] 0 0 = ⟨.error .invalidArity, false⟩ ∧
    sendHandStreams true [] 0 0 = ⟨.error .invalidArity, false⟩ ∧
    sendLinearCommands true [] [] 0 = ⟨.error .invalidArity, false⟩ ∧
    sendLinearStreams true [] [] 0 = ⟨.error .invalidArity, false⟩ ∧
    sendWristCommands true [] false 0 = ⟨.error .invalidArity, false⟩ ∧
    sendWristStreams true [] false 0 = ⟨.error .invalidArity, false⟩ ∧
    sendZeroCalibration true [] 0 = ⟨.error .invalidArity, false⟩ ∧
    setWristLimits true [] [] [] 0 = ⟨.error .invalidArity, false⟩ := by
  obtain ⟨h1, h2, h3, h4, h5, h6, h7, h8, h9, h10⟩ :=
    send_ops_arity_guard 0 [] [] [] [] [] [] 0 false
  exact ⟨h1 (by simp), h2 (by simp), h3 (by simp), h4 (by simp), h5 (by simp),
    h6 (by simp), h7 (by simp), h8 (by simp), h9 (by simp), h10 (by simp)⟩

/-- C7 (amended): besides `waitForStreamingReady` and `isRunningState`,
`isConnected` also converts a failure (a null handle) into a boolean
return; every other public operation surfaces its failures as an error,
never as a default value — both a non-success result code from the
underlying layer (conjuncts at `handle = true`) and a null handle
(conjuncts at `handle = false`, for arbitrary arguments, with no
transmission attempted). -/
theorem error_conversion_amended {σ : Type} (M : HostModel σ) (s0 : σ)
    (T r : ℕ) (pingOk en connected : Bool) (w : WireStatus)
    (ps ts : List ℚ) (mask : List Bool) (code : Int)
    (hcode : code ≠ 0) :
    (sendPing true code).result = .error (.backend code) ∧
    (code < 0 → tryRecvStatus true code w = .error (.backend code)) ∧
    (code < 0 → isRunningState true code = .ok false) ∧
    isConnected false connected = false ∧
    waitValue (waitForStreamingReady M false s0 T r) = false ∧
    (setStreamingMode true en code).result = .error (.backend code) ∧
    (setWristLimits true q2 q2 q2 code).result = .error (.backend code) ∧
    (sendRotaryCommands true q16 q16 code).result = .error (.backend code) ∧
    (sendRotaryStreams true q16 q16 code).result = .error (.backend code) ∧
    (sendLinearCommands true q2 q2 code).result = .error (.backend code) ∧
    (sendLinearStreams true q2 q2 code).result = .error (.backend code) ∧
    (sendWristCommands true q2 en code).result = .error (.backend code) ∧
    (sendWristStreams true q2 en code).result = .error (.backend code) ∧
    (sendHandCommands true q20 0 code).result = .error (.backend code) ∧
    (sendHandStreams true q20 0 code).result = .error (.backend code) ∧
    (sendZeroCalibration true mask16 code).result = .error (.backend code) ∧
    sendPing false code = ⟨.error .nullHandle, false⟩ ∧
    setStreamingMode false en code = ⟨.error .nullHandle, false⟩ ∧
    setWristLimits false ps ps ps code = ⟨.error .nullHandle, false⟩ ∧
    sendRotaryCommands false ps ts code = ⟨.error .nullHandle, false⟩ ∧
    sendRotaryStreams false ps ts code = ⟨.error .nullHandle, false⟩ ∧
    sendLinearCommands false ps ts code = ⟨.error .nullHandle, false⟩ ∧
    sendLinearStreams false ps ts code = ⟨.error .nullHandle, false⟩ ∧
    sendWristCommands false ps en code = ⟨.error .nullHandle, false⟩ ∧
    sendWristStreams false ps en code = ⟨.error .nullHandle, false⟩ ∧
    sendHandCommands false ps 0 code = ⟨.error .nullHandle, false⟩ ∧
    sendHandStreams false ps 0 code = ⟨.error .nullHandle, false⟩ ∧
    sendZeroCalibration false mask code = ⟨.error .nullHandle, false⟩ ∧
    tryRecvStatus false code w = .error .nullHandle ∧
    waitForStreamingReadyChecked false M pingOk s0 T r = .error .nullHandle := by
  have hcr : checkResult code = .error (.backend code) := by
    simp [checkResult, hcode]
  refine ⟨?_, ?_, ?_, rfl, rfl, ?_, ?_, ?_, ?_, ?_, ?_, ?_, ?_, ?_, ?_, ?_,
    rfl, rfl, rfl, rfl, rfl, rfl, rfl, rfl, rfl, rfl, rfl, rfl, rfl, rfl⟩
  · simp [sendPing, guarded, hcr]
  · intro hneg
    have h1 : ¬ 0 < code := by omega
    simp [tryRecvStatus, h1, hcode, hcr, Except.bind]
  · intro hneg
    have : (code == 1) = false := by
      rw [beq_eq_false_iff_ne]
      omega
    simp [isRunningState, this]
  · simp [setStreamingMode, guarded, hcr]
  · simp [setWristLimits, guarded, hcr, q2]
  · simp [sendRotaryCommands, guarded, hcr, q16]
  · simp [sendRotaryStreams, guarded, hcr, q16]
  · simp [sendLinearCommands, guarded, hcr, q2]
  · simp [sendLinearStreams, guarded, hcr, q2]
  · simp [sendWristCommands, guarded, hcr, q2]
  · simp [sendWristStreams, guarded, hcr, q2]
  · simp [sendHandCommands, guarded, hcr, q20]
  · simp [sendHandStreams, guarded, hcr, q20]
  · simp [sendZeroCalibration, guarded, hcr, mask16]

/-- C7 witness: concrete backend failure code `-2` (connection error)
and a concrete null-handle call. -/
theorem error_conversion_amended_witness :
    (sendPing true (-2)).result = .error (.backend (-2)) ∧
    tryRecvStatus true (-2) wire0 = .error (.backend (-2)) ∧
    isRunningState true (-2) = .ok false ∧
    isConnected false true = false ∧
    sendPing false (-2) = ⟨.error .nullHandle, false⟩ := by
  obtain ⟨h1, h2, h3, h4, _, _, _, _, _, _, _, _, _, _, _, _, h17, _⟩ :=
    error_conversion_amended neverRunningHost () 0 0 true true true wire0
      [] [] [] (-2) (by decide)
  exact ⟨h1, h2 (by decide), h3 (by decide), h4, h17⟩

/-- C7 counterexample: `isConnected` on a null handle returns the
default boolean `false` instead of surfacing the null-handle failure as
an error — unlike every command operation (here `sendPing`) on the same
null handle — so it is a third failure-to-boolean conversion, contrary
to the claim that the two polling primitives are the only ones. -/
theorem isConnected_null_defaults_counterexample :
    isConnected false true = false ∧
      (sendPing false 0).result = .error .nullHandle :=
  ⟨rfl, rfl⟩

/-- C8: each `tryRecvStatus` call on a valid client has exactly one of
three outcomes, decided by the poll result code: a positive code yields
one status whose rotary and linear vectors have exactly 16 and 2
entries, copied in order from the wire struct; zero yields `none`; a
negative code raises the backend error.  On the (spec-modelled) empty
queue the call returns `none` and leaves the queue empty, so repeated
calls keep returning `none`. -/
theorem tryRecvStatus_trichotomy (code : Int) (w : WireStatus) :
    (0 < code → tryRecvStatus true code w = .ok (some (mkHandStatus w)) ∧
      (mkHandStatus w).rotaryPositions.length = 16 ∧
      (mkHandStatus w).linearPositions.length = 2 ∧
      (∀ i : Fin 16, (mkHandStatus w).rotaryPositions[(i : ℕ)]? = some (w.rotary i)) ∧
      (∀ i : Fin 2, (mkHandStatus w).linearPositions[(i : ℕ)]? = some (w.linear i))) ∧
    (code = 0 → tryRecvStatus true code w = .ok none) ∧
    (code < 0 → tryRecvStatus true code w = .error (.backend code)) ∧
    tryRecvStatusQ true [] = (.ok none, []) := by
  refine ⟨?_, ?_, ?_, rfl⟩
  · intro hpos
    refine ⟨by simp [tryRecvStatus, hpos], by simp [mkHandStatus],
      by simp [mkHandStatus], ?_, ?_⟩
    · intro i
      show (List.ofFn w.rotary)[(i : ℕ)]? = some (w.rotary i)
      rw [List.getElem?_ofFn]
      simp [List.ofFnNthVal, i.isLt]
    · intro i
      show (List.ofFn w.linear)[(i : ℕ)]? = some (w.linear i)
      rw [List.getElem?_ofFn]
      simp [List.ofFnNthVal, i.isLt]
  · intro hzero
    simp [tryRecvStatus, hzero]
  · intro hneg
    have h1 : ¬ 0 < code := by omega
    have h2 : code ≠ 0 := by omega
    simp [tryRecvStatus, h1, h2, checkResult, Except.bind]

/-- C8 witness: poll codes `1`, `0` and `-2` on a concrete wire
status. -/
theorem tryRecvStatus_trichotomy_witness :
    tryRecvStatus true 1 wire0 = .ok (some (mkHandStatus wire0)) ∧
    tryRecvStatus true 0 wire0 = .ok none ∧
    tryRecvStatus true (-2) wire0 = .error (.backend (-2)) :=
  ⟨((tryRecvStatus_trichotomy 1 wire0).1 (by decide)).1,
    (tryRecvStatus_trichotomy 0 wire0).2.1 rfl,
    (tryRecvStatus_trichotomy (-2) wire0).2.2.1 (by decide)⟩

/-! ## Claims about the demos -/

theorem gatedOnReady_take {tr : List DemoEvent} (h : gatedOnReady tr) (m : ℕ) :
    gatedOnReady (tr.take m) := by
  intro i hi hs
  have hi2 : i < min m tr.length := by
    rw [List.length_take] at hi
    exact hi
  have hi' : i < tr.length := by omega
  have he : (tr.take m).get ⟨i, hi⟩ = tr.get ⟨i, hi'⟩ := by
    simp [List.get_eq_getElem, List.getElem_take]
  obtain ⟨j, hj, hji, hwj⟩ := h i hi' (he ▸ hs)
  refine ⟨j, ?_, hji, ?_⟩
  · rw [List.length_take]
    omega
  · rw [show ∀ hb, (tr.take m).get ⟨j, hb⟩ = tr.get ⟨j, hj⟩ from fun hb => by
      simp [List.get_eq_getElem, List.getElem_take]]
    exact hwj

theorem gatedOnReady_header (body : List DemoEvent) :
    gatedOnReady ([.ping, .setMode true, .waitReady true] ++ body) := by
  intro i hi hs
  by_cases hlt : i < 3
  · interval_cases i <;> simp [isStreamSend] at hs
  · have hj2 : 2 < ([DemoEvent.ping, .setMode true, .waitReady true] ++ body).length := by
      simp
    exact ⟨2, hj2, by omega, rfl⟩

theorem gatedOnReady_no_stream {tr : List DemoEvent}
    (h : ∀ e ∈ tr, isStreamSend e = false) : gatedOnReady tr := by
  intro i hi hs
  rw [h _ (tr.get_mem i hi)] at hs
  cases hs

/-- C9: in both demo control flows (cyclic_motion and kapandji), over all
readiness outcomes, iteration counts, flags, and exception-induced
truncations (`take m`), no streaming-channel send ever occurs before
`waitForStreamingReady` has returned `true`: either the trace observes
`waitReady true` before its first stream send, or it contains no stream
send at all. -/
theorem demos_gate_streaming_on_ready (ready excludeWrist : Bool)
    (iters m : ℕ) :
    gatedOnReady ((cyclicMotionTrace ready iters excludeWrist).take m) ∧
      gatedOnReady ((kapandjiTrace ready iters).take m) := by
  constructor <;> apply gatedOnReady_take
  · cases ready with
    | false =>
      apply gatedOnReady_no_stream
      intro e he
      simp only [cyclicMotionTrace, Bool.false_eq_true, if_false,
        List.mem_append, List.mem_cons, List.mem_singleton,
        List.not_mem_nil, or_false] at he
      rcases he with (rfl | rfl | rfl | rfl) | rfl <;> rfl
    | true =>
      have hrw : cyclicMotionTrace true iters excludeWrist
          = [.ping, .setMode true, .waitReady true] ++
            ((List.replicate iters demoIter).flatten ++ [.handStream] ++
              (if excludeWrist then [] else [.wristStream]) ++ [.setMode false]) := by
        simp [cyclicMotionTrace]
      rw [hrw]
      exact gatedOnReady_header _
  · cases ready with
    | false =>
      apply gatedOnReady_no_stream
      intro e he
      simp only [kapandjiTrace, Bool.false_eq_true, if_false,
        List.append_nil, List.mem_cons, List.not_mem_nil, or_false] at he
      rcases he with rfl | rfl | rfl <;> rfl
    | true =>
      have hrw : kapandjiTrace true iters
          = [.ping, .setMode true, .waitReady true] ++
            ((List.replicate iters demoIter).flatten ++
              [.handStream, .setMode false]) := by
        simp [kapandjiTrace]
      rw [hrw]
      exact gatedOnReady_header _

/-! ## Claims about handle lifetime -/

/-- C10: every operation on a null-handle client fails with the
null-handle error before any transmission is attempted — except
`isConnected`, which returns `false` — and teardown is idempotent: the
destructor and move-assignment destroy a held handle at most once and
leave the source handle null, so destroying any client (including a
moved-from or already-destroyed one) performs no further destroy call
and never double-frees. -/
theorem null_handle_and_teardown_safety {σ : Type} (M : HostModel σ)
    (pingOk : Bool) (s0 : σ) (T r : ℕ) (code : Int)
    (ps ts mv ma mj : List ℚ) (mask : List Bool) (tq : ℚ)
    (up en connected : Bool) (w : WireStatus) (c dst src : ClientH) :
    sendPing false code = ⟨.error .nullHandle, false⟩ ∧
    setStreamingMode false en code = ⟨.error .nullHandle, false⟩ ∧
    setWristLimits false mv ma mj code = ⟨.error .nullHandle, false⟩ ∧
    sendRotaryCommands false ps ts code = ⟨.error .nullHandle, false⟩ ∧
    sendRotaryStreams false ps ts code = ⟨.error .nullHandle, false⟩ ∧
    sendLinearCommands false ps ts code = ⟨.error .nullHandle, false⟩ ∧
    sendLinearStreams false ps ts code = ⟨.error .nullHandle, false⟩ ∧
    sendWristCommands false ps up code = ⟨.error .nullHandle, false⟩ ∧
    sendWristStreams false ps up code = ⟨.error .nullHandle, false⟩ ∧
    sendHandCommands false ps tq code = ⟨.error .nullHandle, false⟩ ∧
    sendHandStreams false ps tq code = ⟨.error .nullHandle, false⟩ ∧
    sendZeroCalibration false mask code = ⟨.error .nullHandle, false⟩ ∧
    isRunningState false code = .error .nullHandle ∧
    tryRecvStatus false code w = .error .nullHandle ∧
    waitForStreamingReadyChecked false M pingOk s0 T r = .error .nullHandle ∧
    isConnected false connected = false ∧
    (destructor c).1.handle = none ∧
    (destructor c).2 = c.handle.toList ∧
    destructor (destructor c).1 = (⟨none⟩, []) ∧
    (moveAssign dst src).1.handle = src.handle ∧
    (moveAssign dst src).2.1.handle = none ∧
    (moveAssign dst src).2.2 = dst.handle.toList ∧
    destructor (moveAssign dst src).2.1 = (⟨none⟩, []) ∧
    (moveCtor src).2.handle = none ∧
    destructor (moveCtor src).2 = (⟨none⟩, []) := by
  refine ⟨rfl, rfl, rfl, rfl, rfl, rfl, rfl, rfl, rfl, rfl, rfl, rfl, rfl, rfl,
    rfl, rfl, ?_, ?_, ?_, rfl, rfl, ?_, rfl, rfl, rfl⟩
  · rcases c with ⟨_ | h⟩ <;> rfl
  · rcases c with ⟨_ | h⟩ <;> rfl
  · rcases c with ⟨_ | h⟩ <;> rfl
  · rcases dst with ⟨_ | h⟩ <;> rfl

end ProHand
